import Mathlib

/-!
# Direct (static) service discovery: `pkg/common/discoveryregister/direct/directconn.go`

A shallow embedding of the `ConnDirect` registry.  Everything the Go file calls
but does not define (the gRPC dialer, the resolver scheme, the part of package
`fmt` that is not spelled out below) is collected in `Env`; the effects the file
has on the outside (dial attempts, closed channels) are logged in `World`.
-/

namespace Direct

/-! ## Values of the outside world -/

/-- A `*grpc.ClientConn`, identified by the pointer. -/
abbrev Conn := Nat

/-- A `grpc.DialOption`.  The only option the file builds itself is
`grpc.WithTransportCredentials(insecure.NewCredentials())`. -/
inductive DialOption where
  | insecureCredentials
  | other (id : Nat)
  deriving DecidableEq, Repr

/-- A Go `error` value as this file builds it: `errors.New` / `fmt.Errorf`
with a message, an error handed back by the gRPC runtime, or `errs.Wrap(e, kv...)`. -/
inductive GoError where
  | new (msg : String)
  | transport (id : Nat)
  | wrap (e : GoError) (kv : List String)
  deriving DecidableEq, Repr

/-- One call of `grpc.DialContext(ctx, target, options...)`. -/
structure DialCall where
  target : String
  options : List DialOption
  deriving DecidableEq, Repr

/-- What the file relies on without defining it.
* `scheme`: the value of `cd.resolverDirect.Scheme()` for the resolver built by
  `NewResolverDirect()`;
* `dial k call`: the result of the `k`-th call (counted from 0) of
  `grpc.DialContext`, a channel or an error;
* `fmtRest format used n`: all that `fmt.Sprintf` still prints once it reaches a
  directive that `doPrintf` below does not spell out (`format` is what is left
  of the format string, starting at the `%` of that directive; `used` says
  whether the operand `n` has been consumed already). -/
structure Env where
  scheme : String
  dial : Nat → DialCall → Except GoError Conn
  fmtRest : String → Bool → Int → String

/-- The effects on the outside: every dial attempted, every channel closed,
oldest first. -/
structure World where
  dials : List DialCall
  closed : List Conn
  deriving DecidableEq, Repr

/-! ## Package `fmt`, one `int` operand -/

/-- Characters after `%` that start flags, an argument index, a width or a
precision. -/
def fmtModifiers : List Char :=
  ['#', '0', '+', '-', ' ', '[', '*', '.', '1', '2', '3', '4', '5', '6', '7', '8', '9']

/-- Verbs other than `d` and `v` that package `fmt` accepts for an `int`
(`T` prints the type). -/
def fmtOtherIntVerbs : List Char :=
  ['b', 'c', 'o', 'O', 'q', 'x', 'X', 'U', 'T']

/-- The loop of `fmt.Sprintf(format, n)` for a single operand `n` of type `int`:
plain text is copied; `%%` prints `%`; `%d` and `%v` print the operand in
decimal; a verb with no operand left prints `%!verb(MISSING)`; a verb that has
no meaning for an `int` prints `%!verb(int=n)`; a lone `%` at the end prints
`%!(NOVERB)`; an operand no directive consumed is reported as
`%!(EXTRA int=n)`.  Flags, widths, precisions, indexes and the remaining
integer verbs are left to `rest`. -/
def doPrintf (rest : String → Bool → Int → String) (n : Int) :
    List Char → Bool → List Char
  | [], used => if used then [] else ("%!(EXTRA int=" ++ toString n ++ ")").data
  | c :: cs, used =>
    if c ≠ '%' then c :: doPrintf rest n cs used
    else
      match cs with
      | [] => "%!(NOVERB)".data ++ (if used then [] else ("%!(EXTRA int=" ++ toString n ++ ")").data)
      | v :: tl =>
        if v = '%' then '%' :: doPrintf rest n tl used
        else if v ∈ fmtModifiers then (rest (String.mk (c :: v :: tl)) used n).data
        else if used then ("%!" ++ String.singleton v ++ "(MISSING)").data ++ doPrintf rest n tl true
        else if v = 'd' ∨ v = 'v' then (toString n).data ++ doPrintf rest n tl true
        else if v ∈ fmtOtherIntVerbs then (rest (String.mk (c :: v :: tl)) used n).data
        else ("%!" ++ String.singleton v ++ "(int=" ++ toString n ++ ")").data ++ doPrintf rest n tl true

/-- The call `fmt.Sprintf(format, n)` with `n` an `int`. -/
def Sprintf (env : Env) (format : String) (n : Int) : String :=
  String.mk (doPrintf env.fmtRest n format.data false)

/-! ## Configuration and topology -/

/-- The fields of `config.GlobalConfig.RpcRegisterName` the file reads. -/
structure RpcRegisterName where
  OpenImUserName : String
  OpenImFriendName : String
  OpenImMsgName : String
  OpenImMessageGatewayName : String
  OpenImGroupName : String
  OpenImAuthName : String
  OpenImPushName : String
  OpenImConversationName : String
  OpenImThirdName : String
  deriving DecidableEq, Repr

/-- The fields of `config.GlobalConfig.RpcPort` the file reads (each a `[]int`). -/
structure RpcPort where
  OpenImUserPort : List Int
  OpenImFriendPort : List Int
  OpenImMessagePort : List Int
  OpenImGroupPort : List Int
  OpenImAuthPort : List Int
  OpenImPushPort : List Int
  OpenImConversationPort : List Int
  OpenImThirdPort : List Int
  deriving DecidableEq, Repr

/-- The field of `config.GlobalConfig.LongConnSvr` the file reads. -/
structure LongConnSvr where
  OpenImMessageGatewayPort : List Int
  deriving DecidableEq, Repr

/-- The field of `config.GlobalConfig.Rpc` the file reads. -/
structure Rpc where
  ListenIP : String
  deriving DecidableEq, Repr

/-- The part of `config.GlobalConfig` the file reads. -/
structure GlobalConfig where
  RpcRegisterName : RpcRegisterName
  RpcPort : RpcPort
  LongConnSvr : LongConnSvr
  Rpc : Rpc
  deriving DecidableEq, Repr

/-- A Go `map[string]V`, as the list of its entries; a key occurs at most once
when the map is built with `GoMap.set` from `[]`. -/
abbrev GoMap (V : Type) := List (String × V)

/-- The read `m[k]` with the comma-ok flag: `none` when the key is absent. -/
def GoMap.get {V : Type} (m : GoMap V) (k : String) : Option V :=
  match m with
  | [] => none
  | (k', v) :: rest => if k' = k then some v else GoMap.get rest k

/-- The map without the entry of key `k`. -/
def GoMap.erase {V : Type} (m : GoMap V) (k : String) : GoMap V :=
  match m with
  | [] => []
  | (k', v) :: rest => if k' = k then GoMap.erase rest k else (k', v) :: GoMap.erase rest k

/-- The assignment `m[k] = v`. -/
def GoMap.set {V : Type} (m : GoMap V) (k : String) (v : V) : GoMap V :=
  (k, v) :: m.erase k

/-- `type ServiceAddresses map[string][]int`. -/
abbrev ServiceAddresses := GoMap (List Int)

/-- The map literal of `getServiceAddresses`: the nine entries are stored in
the order written, a later entry replacing an earlier one with the same name. -/
def getServiceAddresses (config : GlobalConfig) : ServiceAddresses :=
  [ (config.RpcRegisterName.OpenImUserName, config.RpcPort.OpenImUserPort),
    (config.RpcRegisterName.OpenImFriendName, config.RpcPort.OpenImFriendPort),
    (config.RpcRegisterName.OpenImMsgName, config.RpcPort.OpenImMessagePort),
    (config.RpcRegisterName.OpenImMessageGatewayName, config.LongConnSvr.OpenImMessageGatewayPort),
    (config.RpcRegisterName.OpenImGroupName, config.RpcPort.OpenImGroupPort),
    (config.RpcRegisterName.OpenImAuthName, config.RpcPort.OpenImAuthPort),
    (config.RpcRegisterName.OpenImPushName, config.RpcPort.OpenImPushPort),
    (config.RpcRegisterName.OpenImConversationName, config.RpcPort.OpenImConversationPort),
    (config.RpcRegisterName.OpenImThirdName, config.RpcPort.OpenImThirdPort)
  ].foldl (fun m e => m.set e.1 e.2) []

/-! ## The registry -/

/-- The struct `ConnDirect`; `resolverDirect` is `Env.scheme`. -/
structure ConnDirect where
  additionalOpts : List DialOption
  currentServiceAddress : String
  conns : GoMap (List Conn)
  config : GlobalConfig
  deriving DecidableEq, Repr

/-- The constructor `NewConnDirect(config)`: an empty cache, no default
options, the zero value for `currentServiceAddress` (the error is always nil). -/
def NewConnDirect (config : GlobalConfig) : ConnDirect :=
  { additionalOpts := [], currentServiceAddress := "", conns := [], config := config }

/-- The call `grpc.DialContext(ctx, target, options...)`: logged, answered by the
environment. -/
def DialContext (env : Env) (w : World) (target : String) (options : List DialOption) :
    Except GoError Conn × World :=
  (env.dial w.dials.length ⟨target, options⟩,
   { w with dials := w.dials ++ [⟨target, options⟩] })

/-- The method `dialService`: the base credentials are appended to the options, the
target is prefixed with the resolver scheme, a dial error is wrapped. -/
def dialService (env : Env) (w : World) (address : String) (opts : List DialOption) :
    Except GoError Conn × World :=
  let options := opts ++ [DialOption.insecureCredentials]
  match DialContext env w (env.scheme ++ ":///" ++ address) options with
  | (.error err, w') => (.error (GoError.wrap err []), w')
  | (.ok conn, w') => (.ok conn, w')

/-- The method `dialServiceWithoutResolver`: as `dialService`, the target is the
address itself. -/
def dialServiceWithoutResolver (env : Env) (w : World) (address : String)
    (opts : List DialOption) : Except GoError Conn × World :=
  let options := opts ++ [DialOption.insecureCredentials]
  match DialContext env w address options with
  | (.error err, w') => (.error (GoError.wrap err []), w')
  | (.ok conn, w') => (.ok conn, w')

/-- The `for _, port := range ports` loop of `GetConns`, from the connections
collected so far: the first failing dial ends the call with its error. -/
def GetConns.loop (env : Env) (cd : ConnDirect) (opts : List DialOption) :
    List Int → World → List Conn → Except GoError (List Conn) × World
  | [], w, connections => (.ok connections, w)
  | port :: ports, w, connections =>
    match dialServiceWithoutResolver env w (Sprintf env (cd.config.Rpc.ListenIP ++ ":%d") port)
        (cd.additionalOpts ++ opts) with
    | (.error err, w') => (.error err, w')
    | (.ok conn, w') => GetConns.loop env cd opts ports w' (connections ++ [conn])

/-- The method `GetConns(ctx, serviceName, opts...)`. -/
def GetConns (env : Env) (w : World) (cd : ConnDirect) (serviceName : String)
    (opts : List DialOption) : Except GoError (List Conn) × World × ConnDirect :=
  match cd.conns.get serviceName with
  | some conns => (.ok conns, w, cd)
  | none =>
    let ports := ((getServiceAddresses cd.config).get serviceName).getD []
    match GetConns.loop env cd opts ports w [] with
    | (.error err, w') => (.error err, w', cd)
    | (.ok connections, w') =>
      if connections.length = 0 then
        (.error (GoError.wrap
          (GoError.new ("no connections found for service: " ++ serviceName)) []), w', cd)
      else (.ok connections, w', cd)

/-- The `for _, addr := range address` loop of `GetConn` that builds `result`. -/
def GetConn.loop (env : Env) (cd : ConnDirect) : List Int → String → String
  | [], result => result
  | addr :: address, result =>
    if result ≠ "" then
      GetConn.loop env cd address
        (result ++ "," ++ Sprintf env (cd.config.Rpc.ListenIP ++ ":%d") addr)
    else
      GetConn.loop env cd address (Sprintf env (cd.config.Rpc.ListenIP ++ ":%d") addr)

/-- The method `GetConn(ctx, serviceName, opts...)`. -/
def GetConn (env : Env) (w : World) (cd : ConnDirect) (serviceName : String)
    (opts : List DialOption) : Except GoError Conn × World × ConnDirect :=
  match (getServiceAddresses cd.config).get serviceName with
  | none =>
    (.error (GoError.wrap (GoError.new "unknown service name") ["serviceName", serviceName]),
     w, cd)
  | some address =>
    let result := GetConn.loop env cd address ""
    match dialService env w result (cd.additionalOpts ++ opts) with
    | (.error err, w') => (.error err, w', cd)
    | (.ok conn, w') =>
      (.ok conn, w',
       { cd with conns := cd.conns.set serviceName
                   ((cd.conns.get serviceName).getD [] ++ [conn]) })

/-- The method `GetSelfConnTarget()`. -/
def GetSelfConnTarget (cd : ConnDirect) : String :=
  cd.currentServiceAddress

/-- The method `AddOption(opts...)`. -/
def AddOption (cd : ConnDirect) (opts : List DialOption) : ConnDirect :=
  { cd with additionalOpts := cd.additionalOpts ++ opts }

/-- The method `CloseConn(conn)`: a non-nil channel is closed, the registry is not touched. -/
def CloseConn (w : World) (cd : ConnDirect) (conn : Option Conn) : World × ConnDirect :=
  match conn with
  | some c => ({ w with closed := w.closed ++ [c] }, cd)
  | none => (w, cd)

/-- The method `Register(serviceName, host, port, opts...)`: returns nil. -/
def Register (cd : ConnDirect) (_serviceName _host : String) (_port : Int)
    (_opts : List DialOption) : Option GoError × ConnDirect :=
  (none, cd)

/-- The method `UnRegister()`: returns nil. -/
def UnRegister (cd : ConnDirect) : Option GoError × ConnDirect :=
  (none, cd)

/-- The method `CreateRpcRootNodes(serviceNames)`: returns nil. -/
def CreateRpcRootNodes (cd : ConnDirect) (_serviceNames : List String) :
    Option GoError × ConnDirect :=
  (none, cd)

/-- The method `RegisterConf2Registry(key, conf)`: returns nil. -/
def RegisterConf2Registry (cd : ConnDirect) (_key : String) (_conf : List Nat) :
    Option GoError × ConnDirect :=
  (none, cd)

/-- The method `GetConfFromRegistry(key)`: returns `nil, nil`. -/
def GetConfFromRegistry (cd : ConnDirect) (_key : String) :
    (Option (List Nat) × Option GoError) × ConnDirect :=
  ((none, none), cd)

/-- The method `Close()`: empty body. -/
def Close (cd : ConnDirect) : ConnDirect :=
  cd

/-- The method `GetClientLocalConns()`: returns a nil map. -/
def GetClientLocalConns (cd : ConnDirect) : Option (GoMap (List Conn)) × ConnDirect :=
  (none, cd)

/-- The method `GetUserIdHashGatewayHost(ctx, userId)`: returns `"", nil`. -/
def GetUserIdHashGatewayHost (cd : ConnDirect) (_userId : String) :
    (String × Option GoError) × ConnDirect :=
  (("", none), cd)

/-! ## Public operations as a transition system -/

/-- A call of one public method of `ConnDirect`, with its arguments. -/
inductive Op where
  | GetConn (serviceName : String) (opts : List DialOption)
  | GetConns (serviceName : String) (opts : List DialOption)
  | AddOption (opts : List DialOption)
  | CloseConn (conn : Option Conn)
  | Close
  | Register (serviceName host : String) (port : Int) (opts : List DialOption)
  | UnRegister
  | CreateRpcRootNodes (serviceNames : List String)
  | RegisterConf2Registry (key : String) (conf : List Nat)
  | GetConfFromRegistry (key : String)
  | GetSelfConnTarget
  | GetClientLocalConns
  | GetUserIdHashGatewayHost (userId : String)
  deriving DecidableEq, Repr

/-- What a call hands back. -/
inductive Ret where
  | conn (r : Except GoError Conn)
  | conns (r : Except GoError (List Conn))
  | nothing
  | err (e : Option GoError)
  | bytes (b : Option (List Nat)) (e : Option GoError)
  | str (s : String)
  | strErr (s : String) (e : Option GoError)
  | connMap (m : Option (GoMap (List Conn)))

/-- One public call on the registry `cd` in the world `w`. -/
def step (env : Env) (w : World) (cd : ConnDirect) : Op → Ret × World × ConnDirect
  | .GetConn serviceName opts =>
    let r := GetConn env w cd serviceName opts
    (.conn r.1, r.2.1, r.2.2)
  | .GetConns serviceName opts =>
    let r := GetConns env w cd serviceName opts
    (.conns r.1, r.2.1, r.2.2)
  | .AddOption opts => (.nothing, w, AddOption cd opts)
  | .CloseConn conn =>
    let r := CloseConn w cd conn
    (.nothing, r.1, r.2)
  | .Close => (.nothing, w, Close cd)
  | .Register serviceName host port opts =>
    let r := Register cd serviceName host port opts
    (.err r.1, w, r.2)
  | .UnRegister =>
    let r := UnRegister cd
    (.err r.1, w, r.2)
  | .CreateRpcRootNodes serviceNames =>
    let r := CreateRpcRootNodes cd serviceNames
    (.err r.1, w, r.2)
  | .RegisterConf2Registry key conf =>
    let r := RegisterConf2Registry cd key conf
    (.err r.1, w, r.2)
  | .GetConfFromRegistry key =>
    let r := GetConfFromRegistry cd key
    (.bytes r.1.1 r.1.2, w, r.2)
  | .GetSelfConnTarget => (.str (GetSelfConnTarget cd), w, cd)
  | .GetClientLocalConns =>
    let r := GetClientLocalConns cd
    (.connMap r.1, w, r.2)
  | .GetUserIdHashGatewayHost userId =>
    let r := GetUserIdHashGatewayHost cd userId
    (.strErr r.1.1 r.1.2, w, r.2)

/-- A sequence of public calls, from the world `w` and the registry `cd`. -/
def run (env : Env) : List Op → World → ConnDirect → World × ConnDirect
  | [], w, cd => (w, cd)
  | op :: ops, w, cd =>
    let r := step env w cd op
    run env ops r.2.1 r.2.2

/-- The world before the process has dialed or closed anything. -/
def World.init : World := { dials := [], closed := [] }

/-- The registry operations that only exist to satisfy the discovery interface. -/
def Op.isStub : Op → Bool
  | .Close | .Register _ _ _ _ | .UnRegister | .CreateRpcRootNodes _
  | .RegisterConf2Registry _ _ | .GetConfFromRegistry _ => true
  | _ => false

/-- Whether a call handed back nothing but nil values: no error and an empty result. -/
def Ret.isTrivial : Ret → Bool
  | .nothing => true
  | .err e => e.isNone
  | .bytes b e => b.isNone && e.isNone
  | _ => false

/-- A sequence of `AddOption` calls, one per argument list. -/
def addOptions (cd : ConnDirect) (optss : List (List DialOption)) : ConnDirect :=
  optss.foldl AddOption cd

/-- The answers of the environment to the dial calls `calls` made in this order
when `k` dials have been made before. -/
def dialAnswers (env : Env) : Nat → List DialCall → List (Except GoError Conn)
  | _, [] => []
  | k, call :: calls => env.dial k call :: dialAnswers env (k + 1) calls

/-- The dial call `GetConns` makes for one port: the formatted address, the
default options, the caller options, the base credentials. -/
def GetConns.call (env : Env) (cd : ConnDirect) (opts : List DialOption) (port : Int) :
    DialCall :=
  ⟨Sprintf env (cd.config.Rpc.ListenIP ++ ":%d") port,
   cd.additionalOpts ++ opts ++ [DialOption.insecureCredentials]⟩

/-- The world after the further dial calls `calls`. -/
def World.dialed (w : World) (calls : List DialCall) : World :=
  { w with dials := w.dials ++ calls }

/-- The invariant of the registry built for `config`: the configuration is fixed
and the cache only holds topology names. -/
def Inv (config : GlobalConfig) (cd : ConnDirect) : Prop :=
  cd.config = config ∧
  ∀ k, (getServiceAddresses config).get k = none → cd.conns.get k = none

/-! ## Sample inputs -/

/-- A configuration whose user service listens on `1001, 1002` and whose friend
service listens on `2001, 2002`, all on `ip`. -/
def sampleConfig (ip : String) : GlobalConfig :=
  { RpcRegisterName :=
      { OpenImUserName := "svcA", OpenImFriendName := "svcB", OpenImMsgName := "Msg",
        OpenImMessageGatewayName := "MessageGateway", OpenImGroupName := "Group",
        OpenImAuthName := "Auth", OpenImPushName := "Push",
        OpenImConversationName := "Conversation", OpenImThirdName := "Third" },
    RpcPort :=
      { OpenImUserPort := [1001, 1002], OpenImFriendPort := [2001, 2002],
        OpenImMessagePort := [10130], OpenImGroupPort := [10150], OpenImAuthPort := [10160],
        OpenImPushPort := [10170], OpenImConversationPort := [10180],
        OpenImThirdPort := [] },
    LongConnSvr := { OpenImMessageGatewayPort := [10140] },
    Rpc := { ListenIP := ip } }

/-- An environment in which every endpoint is reachable: the `k`-th dial yields
channel `k`. -/
def envUp : Env :=
  { scheme := "direct", dial := fun k _ => .ok k, fmtRest := fun _ _ _ => "" }

/-- The hexadecimal digits. -/
def hexDigits : List Char :=
  ['0', '1', '2', '3', '4', '5', '6', '7', '8', '9',
   'a', 'b', 'c', 'd', 'e', 'f', 'A', 'B', 'C', 'D', 'E', 'F']

/-- Whether every `%` of the text is followed by two hexadecimal digits: the
check on escapes that the URL parser (`net/url`) applies to a dial target. -/
def validEscapes : List Char → Bool
  | [] => true
  | c :: cs =>
    if c ≠ '%' then validEscapes cs
    else
      match cs with
      | a :: b :: tl => decide (a ∈ hexDigits) && decide (b ∈ hexDigits) && validEscapes tl
      | _ => false

/-- An environment whose dialer answers the way a non-blocking `grpc.DialContext`
does: a target with a malformed `%` escape is refused (the `k`-th dial with the
transport error `k`), any other target yields channel `k`. -/
def envChecked : Env :=
  { scheme := "direct",
    dial := fun k call =>
      if validEscapes call.target.data then .ok k else .error (GoError.transport k),
    fmtRest := fun _ _ _ => "" }

/-- An environment in which no endpoint is reachable: the `k`-th dial fails with
the transport error `k`. -/
def envDown : Env :=
  { scheme := "direct", dial := fun k _ => .error (GoError.transport k),
    fmtRest := fun _ _ _ => "" }

/-! ## Maps -/

theorem GoMap.get_erase_self {V : Type} (m : GoMap V) (k : String) :
    (m.erase k).get k = none := by
  induction m with
  | nil => rfl
  | cons e m ih =>
    obtain ⟨k', v⟩ := e
    by_cases hk : k' = k
    · simp [GoMap.erase, hk, ih]
    · simp [GoMap.erase, hk, GoMap.get, ih]

theorem GoMap.get_erase_ne {V : Type} (m : GoMap V) (k k' : String) (h : k' ≠ k) :
    (m.erase k).get k' = m.get k' := by
  induction m with
  | nil => rfl
  | cons e m ih =>
    obtain ⟨k0, v⟩ := e
    by_cases hk : k0 = k
    · subst hk
      have hne : ¬ k0 = k' := fun h0 => h h0.symm
      simp [GoMap.erase, GoMap.get, ih, hne]
    · by_cases hk' : k0 = k'
      · subst hk'
        simp [GoMap.erase, hk, GoMap.get]
      · simp [GoMap.erase, hk, GoMap.get, hk', ih]

theorem GoMap.get_set_self {V : Type} (m : GoMap V) (k : String) (v : V) :
    (m.set k v).get k = some v := by
  simp [GoMap.set, GoMap.get]

theorem GoMap.get_set_ne {V : Type} (m : GoMap V) (k k' : String) (v : V) (h : k' ≠ k) :
    (m.set k v).get k' = m.get k' := by
  have h' : ¬ k = k' := fun h0 => h h0.symm
  simp only [GoMap.set, GoMap.get, h', if_false]
  exact GoMap.get_erase_ne m k k' h

/-! ## Dials -/

theorem dialService_fst (env : Env) (w : World) (address : String) (opts : List DialOption) :
    (dialService env w address opts).1 =
      match env.dial w.dials.length
          ⟨env.scheme ++ ":///" ++ address, opts ++ [DialOption.insecureCredentials]⟩ with
      | .error err => .error (GoError.wrap err [])
      | .ok conn => .ok conn := by
  unfold dialService DialContext
  dsimp only
  cases env.dial w.dials.length
    ⟨env.scheme ++ ":///" ++ address, opts ++ [DialOption.insecureCredentials]⟩ <;> rfl

theorem dialService_snd (env : Env) (w : World) (address : String) (opts : List DialOption) :
    (dialService env w address opts).2 =
      { w with dials := w.dials ++
          [⟨env.scheme ++ ":///" ++ address, opts ++ [DialOption.insecureCredentials]⟩] } := by
  unfold dialService DialContext
  dsimp only
  cases env.dial w.dials.length
    ⟨env.scheme ++ ":///" ++ address, opts ++ [DialOption.insecureCredentials]⟩ <;> rfl

theorem dialServiceWithoutResolver_fst (env : Env) (w : World) (address : String)
    (opts : List DialOption) :
    (dialServiceWithoutResolver env w address opts).1 =
      match env.dial w.dials.length ⟨address, opts ++ [DialOption.insecureCredentials]⟩ with
      | .error err => .error (GoError.wrap err [])
      | .ok conn => .ok conn := by
  unfold dialServiceWithoutResolver DialContext
  dsimp only
  cases env.dial w.dials.length ⟨address, opts ++ [DialOption.insecureCredentials]⟩ <;> rfl

theorem dialServiceWithoutResolver_snd (env : Env) (w : World) (address : String)
    (opts : List DialOption) :
    (dialServiceWithoutResolver env w address opts).2 =
      { w with dials := w.dials ++ [⟨address, opts ++ [DialOption.insecureCredentials]⟩] } := by
  unfold dialServiceWithoutResolver DialContext
  dsimp only
  cases env.dial w.dials.length ⟨address, opts ++ [DialOption.insecureCredentials]⟩ <;> rfl

/-! ## Frame properties of the two acquisition methods -/

/-- The method `GetConns` never writes a field of the registry. -/
theorem GetConns_registry (env : Env) (w : World) (cd : ConnDirect) (serviceName : String)
    (opts : List DialOption) : (GetConns env w cd serviceName opts).2.2 = cd := by
  unfold GetConns
  cases cd.conns.get serviceName with
  | some conns => rfl
  | none =>
    simp only
    cases GetConns.loop env cd opts
        (((getServiceAddresses cd.config).get serviceName).getD []) w [] with
    | mk r w' =>
      cases r with
      | error err => rfl
      | ok connections =>
        simp only
        split <;> rfl

/-- With no address to dial, `GetConns` fails without dialing. -/
theorem GetConns_no_ports (env : Env) (w : World) (cd : ConnDirect) (serviceName : String)
    (opts : List DialOption) (hmiss : cd.conns.get serviceName = none)
    (hports : ((getServiceAddresses cd.config).get serviceName).getD [] = []) :
    GetConns env w cd serviceName opts =
      (.error (GoError.wrap
        (GoError.new ("no connections found for service: " ++ serviceName)) []), w, cd) := by
  unfold GetConns
  rw [hmiss]
  simp only [hports, GetConns.loop]
  rfl

/-- A cached entry is returned as it is. -/
theorem GetConns_hit (env : Env) (w : World) (cd : ConnDirect) (serviceName : String)
    (opts : List DialOption) (conns : List Conn) (h : cd.conns.get serviceName = some conns) :
    GetConns env w cd serviceName opts = (.ok conns, w, cd) := by
  unfold GetConns
  rw [h]

/-- What `GetConn` does to the cache: the entry of `serviceName` can only grow at
the end, every other entry stays. -/
theorem GetConn_registry (env : Env) (w : World) (cd : ConnDirect) (serviceName : String)
    (opts : List DialOption) :
    (GetConn env w cd serviceName opts).2.2 = cd ∨
    ∃ conn, (GetConn env w cd serviceName opts).2.2 =
      { cd with conns := cd.conns.set serviceName
                  ((cd.conns.get serviceName).getD [] ++ [conn]) } ∧
      (getServiceAddresses cd.config).get serviceName ≠ none := by
  unfold GetConn
  cases h : (getServiceAddresses cd.config).get serviceName with
  | none => exact Or.inl rfl
  | some address =>
    simp only
    cases dialService env w (GetConn.loop env cd address "") (cd.additionalOpts ++ opts) with
    | mk r w' =>
      cases r with
      | error err => exact Or.inl rfl
      | ok conn => exact Or.inr ⟨conn, rfl, by simp⟩

/-- Every public call leaves the configuration, the self address and (apart from
`AddOption`) the default options alone, and changes the cache at most by
appending one channel to the entry of a topology name. -/
theorem step_registry (env : Env) (w : World) (cd : ConnDirect) (op : Op) :
    (step env w cd op).2.2 = cd ∨
    (∃ opts, op = .AddOption opts ∧
      (step env w cd op).2.2 = { cd with additionalOpts := cd.additionalOpts ++ opts }) ∨
    (∃ serviceName conn, (step env w cd op).2.2 =
      { cd with conns := cd.conns.set serviceName
                  ((cd.conns.get serviceName).getD [] ++ [conn]) } ∧
      (getServiceAddresses cd.config).get serviceName ≠ none) := by
  cases op with
  | GetConn serviceName opts =>
    rcases GetConn_registry env w cd serviceName opts with h | ⟨conn, h, ht⟩
    · exact Or.inl h
    · exact Or.inr (Or.inr ⟨serviceName, conn, h, ht⟩)
  | GetConns serviceName opts => exact Or.inl (GetConns_registry env w cd serviceName opts)
  | AddOption opts => exact Or.inr (Or.inl ⟨opts, rfl, rfl⟩)
  | CloseConn conn => cases conn <;> exact Or.inl rfl
  | _ => exact Or.inl rfl

theorem Inv_step (env : Env) (config : GlobalConfig) (w : World) (cd : ConnDirect) (op : Op)
    (h : Inv config cd) : Inv config (step env w cd op).2.2 := by
  obtain ⟨hc, hk⟩ := h
  rcases step_registry env w cd op with h1 | ⟨opts, _, h1⟩ | ⟨serviceName, conn, h1, ht⟩
  · rw [h1]; exact ⟨hc, hk⟩
  · rw [h1]; exact ⟨hc, hk⟩
  · rw [h1]
    refine ⟨hc, fun k hnone => ?_⟩
    have hne : k ≠ serviceName := by
      intro heq
      subst heq
      rw [hc] at ht
      exact ht hnone
    show (cd.conns.set serviceName _).get k = none
    rw [GoMap.get_set_ne _ _ _ _ hne]
    exact hk k hnone

theorem Inv_run (env : Env) (config : GlobalConfig) (ops : List Op) (w : World)
    (cd : ConnDirect) (h : Inv config cd) : Inv config (run env ops w cd).2 := by
  induction ops generalizing w cd with
  | nil => exact h
  | cons op ops ih => exact ih _ _ (Inv_step env config w cd op h)

theorem Inv_new (config : GlobalConfig) : Inv config (NewConnDirect config) :=
  ⟨rfl, fun _ _ => rfl⟩

/-- With a name outside the topology, `GetConn` stops at the lookup. -/
theorem GetConn_unknown (env : Env) (w : World) (cd : ConnDirect) (serviceName : String)
    (opts : List DialOption) (h : (getServiceAddresses cd.config).get serviceName = none) :
    GetConn env w cd serviceName opts =
      (.error (GoError.wrap (GoError.new "unknown service name")
        ["serviceName", serviceName]), w, cd) := by
  unfold GetConn
  rw [h]

/-- The two possible outcomes of `GetConn` for a topology name, by the answer of
the single dial. -/
theorem GetConn_known (env : Env) (w : World) (cd : ConnDirect) (serviceName : String)
    (opts : List DialOption) (address : List Int)
    (h : (getServiceAddresses cd.config).get serviceName = some address) :
    GetConn env w cd serviceName opts =
      match env.dial w.dials.length
          ⟨env.scheme ++ ":///" ++ GetConn.loop env cd address "",
           cd.additionalOpts ++ opts ++ [DialOption.insecureCredentials]⟩ with
      | .error err =>
        (.error (GoError.wrap err []),
         { w with dials := w.dials ++
            [⟨env.scheme ++ ":///" ++ GetConn.loop env cd address "",
              cd.additionalOpts ++ opts ++ [DialOption.insecureCredentials]⟩] }, cd)
      | .ok conn =>
        (.ok conn,
         { w with dials := w.dials ++
            [⟨env.scheme ++ ":///" ++ GetConn.loop env cd address "",
              cd.additionalOpts ++ opts ++ [DialOption.insecureCredentials]⟩] },
         { cd with conns := cd.conns.set serviceName
                     ((cd.conns.get serviceName).getD [] ++ [conn]) }) := by
  unfold GetConn
  rw [h]
  unfold dialService DialContext
  dsimp only
  cases env.dial w.dials.length
    ⟨env.scheme ++ ":///" ++ GetConn.loop env cd address "",
     cd.additionalOpts ++ opts ++ [DialOption.insecureCredentials]⟩ <;> rfl

/-- After a public call the entry of a cached name is still there, with the old
channels in front. -/
theorem step_cache_grows (env : Env) (w : World) (cd : ConnDirect) (op : Op)
    (serviceName : String) (conns : List Conn) (h : cd.conns.get serviceName = some conns) :
    ∃ conns', (step env w cd op).2.2.conns.get serviceName = some conns' ∧ conns <+: conns' := by
  rcases step_registry env w cd op with h1 | ⟨opts, _, h1⟩ | ⟨name, conn, h1, _⟩
  · rw [h1]; exact ⟨conns, h, List.prefix_refl _⟩
  · rw [h1]; exact ⟨conns, h, List.prefix_refl _⟩
  · rw [h1]
    by_cases hn : serviceName = name
    · subst hn
      refine ⟨conns ++ [conn], ?_, List.prefix_append _ _⟩
      show (cd.conns.set serviceName _).get serviceName = _
      rw [GoMap.get_set_self, h]
      rfl
    · refine ⟨conns, ?_, List.prefix_refl _⟩
      show (cd.conns.set name _).get serviceName = _
      rw [GoMap.get_set_ne _ _ _ _ hn]
      exact h

/-- No public call writes `currentServiceAddress`. -/
theorem step_currentServiceAddress (env : Env) (w : World) (cd : ConnDirect) (op : Op) :
    (step env w cd op).2.2.currentServiceAddress = cd.currentServiceAddress := by
  rcases step_registry env w cd op with h1 | ⟨opts, _, h1⟩ | ⟨name, conn, h1, _⟩ <;> rw [h1]

theorem run_currentServiceAddress (env : Env) (ops : List Op) (w : World) (cd : ConnDirect) :
    (run env ops w cd).2.currentServiceAddress = cd.currentServiceAddress := by
  induction ops generalizing w cd with
  | nil => rfl
  | cons op ops ih =>
    show (run env ops _ _).2.currentServiceAddress = _
    rw [ih, step_currentServiceAddress]

/-! ## The claims on failure, caching and lifecycle -/

/-- C1: in every registry state reached from `NewConnDirect(config)` by public
calls, for a service name that is no key of the topology, `GetConn` and `GetConns`
both return an error and no channel (the "unknown service name" error, resp. the
"no connections found for service" error), dial nothing and leave the registry as
it is. -/
theorem unknown_service_fails_without_dial (env : Env) (config : GlobalConfig) (ops : List Op)
    (serviceName : String) (opts : List DialOption)
    (h : (getServiceAddresses config).get serviceName = none) :
    GetConn env (run env ops World.init (NewConnDirect config)).1
        (run env ops World.init (NewConnDirect config)).2 serviceName opts =
      (.error (GoError.wrap (GoError.new "unknown service name") ["serviceName", serviceName]),
       (run env ops World.init (NewConnDirect config)).1,
       (run env ops World.init (NewConnDirect config)).2) ∧
    GetConns env (run env ops World.init (NewConnDirect config)).1
        (run env ops World.init (NewConnDirect config)).2 serviceName opts =
      (.error (GoError.wrap
        (GoError.new ("no connections found for service: " ++ serviceName)) []),
       (run env ops World.init (NewConnDirect config)).1,
       (run env ops World.init (NewConnDirect config)).2) := by
  obtain ⟨hc, hk⟩ := Inv_run env config ops World.init _ (Inv_new config)
  have ht : (getServiceAddresses
      (run env ops World.init (NewConnDirect config)).2.config).get serviceName = none := by
    rw [hc]; exact h
  refine ⟨GetConn_unknown env _ _ serviceName opts ht, ?_⟩
  exact GetConns_no_ports env _ _ serviceName opts (hk serviceName h) (by rw [ht]; rfl)

theorem unknown_service_fails_without_dial_witness :
    (getServiceAddresses (sampleConfig "127.0.0.1")).get "nope" = none ∧
    GetConn envUp
        (run envUp [.GetConn "svcA" [], .GetConns "svcB" []] World.init
          (NewConnDirect (sampleConfig "127.0.0.1"))).1
        (run envUp [.GetConn "svcA" [], .GetConns "svcB" []] World.init
          (NewConnDirect (sampleConfig "127.0.0.1"))).2 "nope" [] =
      (.error (GoError.wrap (GoError.new "unknown service name") ["serviceName", "nope"]),
       (run envUp [.GetConn "svcA" [], .GetConns "svcB" []] World.init
          (NewConnDirect (sampleConfig "127.0.0.1"))).1,
       (run envUp [.GetConn "svcA" [], .GetConns "svcB" []] World.init
          (NewConnDirect (sampleConfig "127.0.0.1"))).2) ∧
    GetConns envUp
        (run envUp [.GetConn "svcA" [], .GetConns "svcB" []] World.init
          (NewConnDirect (sampleConfig "127.0.0.1"))).1
        (run envUp [.GetConn "svcA" [], .GetConns "svcB" []] World.init
          (NewConnDirect (sampleConfig "127.0.0.1"))).2 "nope" [] =
      (.error (GoError.wrap
        (GoError.new ("no connections found for service: " ++ "nope")) []),
       (run envUp [.GetConn "svcA" [], .GetConns "svcB" []] World.init
          (NewConnDirect (sampleConfig "127.0.0.1"))).1,
       (run envUp [.GetConn "svcA" [], .GetConns "svcB" []] World.init
          (NewConnDirect (sampleConfig "127.0.0.1"))).2) :=
  ⟨by decide, unknown_service_fails_without_dial envUp (sampleConfig "127.0.0.1")
    [.GetConn "svcA" [], .GetConns "svcB" []] "nope" [] (by decide)⟩

/-- C7: when the cache holds an entry for the service name, `GetConns` returns
exactly that sequence of channels, in the same order, with no error, dials
nothing and leaves world and registry unchanged; this is so whoever put the
channels there. -/
theorem GetConns_returns_cached_entry (env : Env) (w : World) (cd : ConnDirect)
    (serviceName : String) (opts : List DialOption) (conns : List Conn)
    (h : cd.conns.get serviceName = some conns) :
    GetConns env w cd serviceName opts = (.ok conns, w, cd) :=
  GetConns_hit env w cd serviceName opts conns h

theorem GetConns_returns_cached_entry_witness :
    (GetConn envUp World.init (NewConnDirect (sampleConfig "127.0.0.1")) "svcA" []).2.2.conns.get
        "svcA" = some [0] ∧
    GetConns envUp
        (GetConn envUp World.init (NewConnDirect (sampleConfig "127.0.0.1")) "svcA" []).2.1
        (GetConn envUp World.init (NewConnDirect (sampleConfig "127.0.0.1")) "svcA" []).2.2
        "svcA" [] =
      (.ok [0],
       (GetConn envUp World.init (NewConnDirect (sampleConfig "127.0.0.1")) "svcA" []).2.1,
       (GetConn envUp World.init (NewConnDirect (sampleConfig "127.0.0.1")) "svcA" []).2.2) :=
  ⟨by rfl, GetConns_returns_cached_entry envUp _ _ "svcA" [] [0] (by rfl)⟩

/-- C9: there is no way back from resolved to unresolved.  For every registry
state and every public call, a service name with a cache entry before the call
has one after it, and the old entry is a prefix of the new one; `CloseConn`
leaves the registry (the cache included) as it is; the lifecycle stubs hand back
no error and an empty result and change neither world nor registry. -/
theorem cache_entry_never_removed (env : Env) (w : World) (cd : ConnDirect) (op : Op)
    (serviceName : String) (conns : List Conn) (h : cd.conns.get serviceName = some conns) :
    (∃ conns', (step env w cd op).2.2.conns.get serviceName = some conns' ∧ conns <+: conns') ∧
    (∀ conn, (step env w cd (.CloseConn conn)).2.2 = cd) ∧
    (op.isStub = true →
      (step env w cd op).1.isTrivial = true ∧ (step env w cd op).2 = (w, cd)) := by
  refine ⟨step_cache_grows env w cd op serviceName conns h, ?_, ?_⟩
  · intro conn
    cases conn <;> rfl
  · intro hs
    cases op <;> first | exact ⟨rfl, rfl⟩ | exact absurd hs (by simp [Op.isStub])

theorem cache_entry_never_removed_witness :
    (∃ conns', (step envUp ⟨[], []⟩
        { NewConnDirect (sampleConfig "127.0.0.1") with conns := [("svcA", [7])] }
        (.CloseConn (some 7))).2.2.conns.get "svcA" = some conns' ∧ [7] <+: conns') ∧
    (∀ conn, (step envUp ⟨[], []⟩
        { NewConnDirect (sampleConfig "127.0.0.1") with conns := [("svcA", [7])] }
        (.CloseConn conn)).2.2 =
        { NewConnDirect (sampleConfig "127.0.0.1") with conns := [("svcA", [7])] }) ∧
    ((Op.CloseConn (some 7)).isStub = true →
      (step envUp ⟨[], []⟩
        { NewConnDirect (sampleConfig "127.0.0.1") with conns := [("svcA", [7])] }
        (.CloseConn (some 7))).1.isTrivial = true ∧
      (step envUp ⟨[], []⟩
        { NewConnDirect (sampleConfig "127.0.0.1") with conns := [("svcA", [7])] }
        (.CloseConn (some 7))).2 =
        (⟨[], []⟩, { NewConnDirect (sampleConfig "127.0.0.1") with conns := [("svcA", [7])] })) :=
  cache_entry_never_removed envUp ⟨[], []⟩
    { NewConnDirect (sampleConfig "127.0.0.1") with conns := [("svcA", [7])] }
    (.CloseConn (some 7)) "svcA" [7] (by rfl)

/-- C10, as the code has it: `GetSelfConnTarget` returns the field
`currentServiceAddress`; `NewConnDirect` leaves it empty and no public call,
`Register` included, writes it, so in every state reached from
`NewConnDirect(config)` the result is the empty string, and no call changes
what is returned. -/
theorem GetSelfConnTarget_is_empty_and_fixed (env : Env) (config : GlobalConfig)
    (ops : List Op) (w : World) (cd : ConnDirect) (op : Op) :
    GetSelfConnTarget (run env ops World.init (NewConnDirect config)).2 = "" ∧
    GetSelfConnTarget (step env w cd op).2.2 = GetSelfConnTarget cd :=
  ⟨run_currentServiceAddress env ops World.init (NewConnDirect config),
   step_currentServiceAddress env w cd op⟩

/-- C10 as stated fails: after `Register("svcA", "10.0.0.1", 8080)` on a new
registry `GetSelfConnTarget` returns the empty string, not `10.0.0.1:8080`. -/
theorem GetSelfConnTarget_after_Register_counterexample :
    GetSelfConnTarget (run envUp [.Register "svcA" "10.0.0.1" 8080 []] World.init
      (NewConnDirect (sampleConfig "127.0.0.1"))).2 = "" ∧
    GetSelfConnTarget (run envUp [.Register "svcA" "10.0.0.1" 8080 []] World.init
      (NewConnDirect (sampleConfig "127.0.0.1"))).2 ≠ "10.0.0.1:8080" :=
  ⟨by rfl, by decide⟩

/-! ## Appending to the cache, option order -/

theorem GetConn_ok_length (env : Env) (w : World) (cd : ConnDirect) (serviceName : String)
    (opts : List DialOption) (address : List Int)
    (h : (getServiceAddresses cd.config).get serviceName = some address)
    (hup : ∀ k call, ∃ conn, env.dial k call = .ok conn) :
    (((GetConn env w cd serviceName opts).2.2.conns.get serviceName).getD []).length =
      ((cd.conns.get serviceName).getD []).length + 1 ∧
    (GetConn env w cd serviceName opts).2.2.config = cd.config := by
  rw [GetConn_known env w cd serviceName opts address h]
  obtain ⟨conn, hc⟩ := hup w.dials.length
    ⟨env.scheme ++ ":///" ++ GetConn.loop env cd address "",
     cd.additionalOpts ++ opts ++ [DialOption.insecureCredentials]⟩
  rw [hc]
  refine ⟨?_, rfl⟩
  show (((cd.conns.set serviceName _).get serviceName).getD []).length = _
  rw [GoMap.get_set_self]
  simp

theorem run_GetConn_length (env : Env) (serviceName : String) (opts : List DialOption)
    (address : List Int) (hup : ∀ k call, ∃ conn, env.dial k call = .ok conn) (n : Nat)
    (w : World) (cd : ConnDirect)
    (h : (getServiceAddresses cd.config).get serviceName = some address) :
    (((run env (List.replicate n (Op.GetConn serviceName opts)) w cd).2.conns.get
        serviceName).getD []).length = ((cd.conns.get serviceName).getD []).length + n := by
  induction n generalizing w cd with
  | zero => rfl
  | succ n ih =>
    rw [List.replicate_succ]
    show (((run env (List.replicate n (Op.GetConn serviceName opts))
      (GetConn env w cd serviceName opts).2.1
      (GetConn env w cd serviceName opts).2.2).2.conns.get serviceName).getD []).length = _
    obtain ⟨hl, hc⟩ := GetConn_ok_length env w cd serviceName opts address h hup
    rw [ih _ _ (by rw [hc]; exact h), hl]
    omega

/-- C6: `GetConn` changes the registry only by appending.  For every state and
every topology name: if the dial yields the channel `conn`, then `GetConn`
returns it, the cache entry of the name is the previous entry (empty if absent)
with `conn` at the end, and every other cache key, the default options, the self
address and the configuration are unchanged; if the dial fails, `GetConn`
returns the (wrapped) error and the registry is unchanged.  So `n` successful
calls on a new registry leave `n` channels under the name. -/
theorem GetConn_only_appends (env : Env) (w : World) (cd : ConnDirect) (serviceName : String)
    (opts : List DialOption) (address : List Int)
    (h : (getServiceAddresses cd.config).get serviceName = some address) :
    (∀ conn,
      env.dial w.dials.length
          ⟨env.scheme ++ ":///" ++ GetConn.loop env cd address "",
           cd.additionalOpts ++ opts ++ [DialOption.insecureCredentials]⟩ = .ok conn →
        (GetConn env w cd serviceName opts).1 = .ok conn ∧
        (GetConn env w cd serviceName opts).2.2.conns.get serviceName =
          some ((cd.conns.get serviceName).getD [] ++ [conn]) ∧
        (∀ k, k ≠ serviceName →
          (GetConn env w cd serviceName opts).2.2.conns.get k = cd.conns.get k) ∧
        (GetConn env w cd serviceName opts).2.2.additionalOpts = cd.additionalOpts ∧
        (GetConn env w cd serviceName opts).2.2.currentServiceAddress =
          cd.currentServiceAddress ∧
        (GetConn env w cd serviceName opts).2.2.config = cd.config) ∧
    (∀ err,
      env.dial w.dials.length
          ⟨env.scheme ++ ":///" ++ GetConn.loop env cd address "",
           cd.additionalOpts ++ opts ++ [DialOption.insecureCredentials]⟩ = .error err →
        (GetConn env w cd serviceName opts).1 = .error (GoError.wrap err []) ∧
        (GetConn env w cd serviceName opts).2.2 = cd) ∧
    ((∀ k call, ∃ conn, env.dial k call = .ok conn) →
      ∀ n, (((run env (List.replicate n (Op.GetConn serviceName opts)) World.init
        (NewConnDirect cd.config)).2.conns.get serviceName).getD []).length = n) := by
  refine ⟨?_, ?_, ?_⟩
  · intro conn hc
    rw [GetConn_known env w cd serviceName opts address h, hc]
    refine ⟨rfl, GoMap.get_set_self _ _ _, fun k hk => GoMap.get_set_ne _ _ _ _ hk,
      rfl, rfl, rfl⟩
  · intro err hc
    rw [GetConn_known env w cd serviceName opts address h, hc]
    exact ⟨rfl, rfl⟩
  · intro hup n
    have := run_GetConn_length env serviceName opts address hup n World.init
      (NewConnDirect cd.config) h
    simpa [NewConnDirect, GoMap.get] using this

theorem GetConn_only_appends_witness :
    (getServiceAddresses (sampleConfig "127.0.0.1")).get "svcB" = some [2001, 2002] ∧
    (GetConn envUp ⟨[], []⟩
        { NewConnDirect (sampleConfig "127.0.0.1") with conns := [("svcB", [7])] }
        "svcB" []).2.2.conns.get "svcB" = some [7, 0] ∧
    (((run envUp (List.replicate 3 (Op.GetConn "svcB" [])) World.init
        (NewConnDirect (sampleConfig "127.0.0.1"))).2.conns.get "svcB").getD []).length = 3 :=
  ⟨by decide,
   ((GetConn_only_appends envUp ⟨[], []⟩
      { NewConnDirect (sampleConfig "127.0.0.1") with conns := [("svcB", [7])] }
      "svcB" [] [2001, 2002] (by decide)).1 0 (by rfl)).2.1,
   (GetConn_only_appends envUp ⟨[], []⟩
      { NewConnDirect (sampleConfig "127.0.0.1") with conns := [("svcB", [7])] }
      "svcB" [] [2001, 2002] (by decide)).2.2 (fun k _ => ⟨k, rfl⟩) 3⟩

/-! ## The fan-out loop -/

theorem World.dialed_nil (w : World) : w.dialed [] = w := by
  simp [World.dialed]

theorem World.dialed_dialed (w : World) (a b : List DialCall) :
    (w.dialed a).dialed b = w.dialed (a ++ b) := by
  simp [World.dialed]

theorem World.dialed_length (w : World) (a : List DialCall) :
    (w.dialed a).dials.length = w.dials.length + a.length := by
  simp [World.dialed]

theorem GetConns.loop_cons (env : Env) (cd : ConnDirect) (opts : List DialOption) (port : Int)
    (ports : List Int) (w : World) (connections : List Conn) :
    GetConns.loop env cd opts (port :: ports) w connections =
      match env.dial w.dials.length (GetConns.call env cd opts port) with
      | .error err => (.error (GoError.wrap err []), w.dialed [GetConns.call env cd opts port])
      | .ok conn =>
        GetConns.loop env cd opts ports (w.dialed [GetConns.call env cd opts port])
          (connections ++ [conn]) := by
  rw [GetConns.loop]
  unfold dialServiceWithoutResolver DialContext GetConns.call World.dialed
  dsimp only
  cases env.dial w.dials.length
    ⟨Sprintf env (cd.config.Rpc.ListenIP ++ ":%d") port,
     cd.additionalOpts ++ opts ++ [DialOption.insecureCredentials]⟩ <;> rfl

/-- The loop dials a prefix of the ports, in order, and nothing else. -/
theorem GetConns.loop_world (env : Env) (cd : ConnDirect) (opts : List DialOption)
    (ports : List Int) (w : World) (connections : List Conn) :
    ∃ m, m ≤ ports.length ∧
      (GetConns.loop env cd opts ports w connections).2 =
        w.dialed ((ports.take m).map (GetConns.call env cd opts)) := by
  induction ports generalizing w connections with
  | nil => exact ⟨0, Nat.le_refl _, by simp [GetConns.loop, World.dialed_nil]⟩
  | cons port ports ih =>
    rw [GetConns.loop_cons]
    cases env.dial w.dials.length (GetConns.call env cd opts port) with
    | error err => exact ⟨1, by simp, by simp⟩
    | ok conn =>
      obtain ⟨m, hm, h⟩ := ih (w.dialed [GetConns.call env cd opts port]) (connections ++ [conn])
      refine ⟨m + 1, by simpa using hm, ?_⟩
      simp only [h, World.dialed_dialed, List.take_succ_cons, List.map_cons,
        List.singleton_append]

/-- When the environment answers every dial of the loop with a channel, the loop
dials every port once, in order, and collects the channels in that order. -/
theorem GetConns.loop_ok (env : Env) (cd : ConnDirect) (opts : List DialOption)
    (ports : List Int) (w : World) (connections : List Conn)
    (hup : ∀ r ∈ dialAnswers env w.dials.length (ports.map (GetConns.call env cd opts)),
      ∃ conn, r = .ok conn) :
    ∃ conns, conns.map Except.ok =
        dialAnswers env w.dials.length (ports.map (GetConns.call env cd opts)) ∧
      GetConns.loop env cd opts ports w connections =
        (.ok (connections ++ conns), w.dialed (ports.map (GetConns.call env cd opts))) := by
  induction ports generalizing w connections with
  | nil => exact ⟨[], rfl, by simp [GetConns.loop, World.dialed_nil]⟩
  | cons port ports ih =>
    rw [GetConns.loop_cons]
    obtain ⟨conn, hc⟩ := hup (env.dial w.dials.length (GetConns.call env cd opts port))
      (by simp [dialAnswers])
    rw [hc]
    have hlen : (w.dialed [GetConns.call env cd opts port]).dials.length =
        w.dials.length + 1 := by simp [World.dialed]
    obtain ⟨conns, hm, h⟩ := ih (w.dialed [GetConns.call env cd opts port])
      (connections ++ [conn]) (by
        intro r hr
        rw [hlen] at hr
        exact hup r (by simp [dialAnswers, hr]))
    refine ⟨conn :: conns, ?_, ?_⟩
    · rw [hlen] at hm
      simp [dialAnswers, hm, hc]
    · simp only [h, World.dialed_dialed, List.map_cons, List.singleton_append,
        List.append_assoc]

theorem dialAnswers_length (env : Env) (k : Nat) (calls : List DialCall) :
    (dialAnswers env k calls).length = calls.length := by
  induction calls generalizing k with
  | nil => rfl
  | cons call calls ih => simp [dialAnswers, ih]

/-- A cache miss with every dial answered by a channel: one dial per port, the
channels handed back in port order, nothing stored. -/
theorem GetConns_miss_ok (env : Env) (w : World) (cd : ConnDirect) (serviceName : String)
    (opts : List DialOption) (ports : List Int) (hmiss : cd.conns.get serviceName = none)
    (hports : ((getServiceAddresses cd.config).get serviceName).getD [] = ports)
    (hne : ports ≠ [])
    (hup : ∀ r ∈ dialAnswers env w.dials.length (ports.map (GetConns.call env cd opts)),
      ∃ conn, r = .ok conn) :
    ∃ conns, conns.map Except.ok =
        dialAnswers env w.dials.length (ports.map (GetConns.call env cd opts)) ∧
      GetConns env w cd serviceName opts =
        (.ok conns, w.dialed (ports.map (GetConns.call env cd opts)), cd) := by
  obtain ⟨conns, hm, h⟩ := GetConns.loop_ok env cd opts ports w [] hup
  refine ⟨conns, hm, ?_⟩
  have hlen : conns.length ≠ 0 := by
    have h1 := congrArg List.length hm
    rw [dialAnswers_length, List.length_map, List.length_map] at h1
    rw [h1]
    exact fun h0 => hne (List.length_eq_zero.mp h0)
  unfold GetConns
  rw [hmiss]
  simp only [hports, h, List.nil_append, hlen, if_false]

/-- A cache miss whose first dial fails: that dial only, its wrapped error. -/
theorem GetConns_miss_first_fails (env : Env) (w : World) (cd : ConnDirect)
    (serviceName : String) (opts : List DialOption) (port : Int) (ports : List Int)
    (err : GoError) (hmiss : cd.conns.get serviceName = none)
    (hports : ((getServiceAddresses cd.config).get serviceName).getD [] = port :: ports)
    (hdown : env.dial w.dials.length (GetConns.call env cd opts port) = .error err) :
    GetConns env w cd serviceName opts =
      (.error (GoError.wrap err []), w.dialed [GetConns.call env cd opts port], cd) := by
  unfold GetConns
  rw [hmiss]
  simp only [hports, GetConns.loop_cons, hdown]

theorem addOptions_eq (cd : ConnDirect) (optss : List (List DialOption)) :
    addOptions cd optss = { cd with additionalOpts := cd.additionalOpts ++ optss.flatten } := by
  induction optss generalizing cd with
  | nil => simp [addOptions]
  | cons o optss ih =>
    show addOptions (AddOption cd o) optss = _
    rw [ih]
    simp [AddOption, List.append_assoc]

/-- The world after `GetConns`: a prefix of the ports of the name is dialed on a
miss, nothing on a hit. -/
theorem GetConns_world (env : Env) (w : World) (cd : ConnDirect) (serviceName : String)
    (opts : List DialOption) :
    ∃ m, m ≤ (((getServiceAddresses cd.config).get serviceName).getD []).length ∧
      (GetConns env w cd serviceName opts).2.1 =
        w.dialed (((((getServiceAddresses cd.config).get serviceName).getD []).take m).map
          (GetConns.call env cd opts)) := by
  unfold GetConns
  cases cd.conns.get serviceName with
  | some conns => exact ⟨0, Nat.zero_le _, by simp [World.dialed_nil]⟩
  | none =>
    obtain ⟨m, hm, h⟩ := GetConns.loop_world env cd opts
      (((getServiceAddresses cd.config).get serviceName).getD []) w []
    refine ⟨m, hm, ?_⟩
    rw [← h]
    dsimp only
    cases GetConns.loop env cd opts
        (((getServiceAddresses cd.config).get serviceName).getD []) w [] with
    | mk r w' =>
      cases r with
      | error err => rfl
      | ok connections =>
        dsimp only
        split <;> rfl

/-- The world after `GetConn`: one dial for a topology name, none otherwise. -/
theorem GetConn_world (env : Env) (w : World) (cd : ConnDirect) (serviceName : String)
    (opts : List DialOption) :
    (GetConn env w cd serviceName opts).2.1 =
      w.dialed (match (getServiceAddresses cd.config).get serviceName with
        | none => []
        | some address =>
          [⟨env.scheme ++ ":///" ++ GetConn.loop env cd address "",
            cd.additionalOpts ++ opts ++ [DialOption.insecureCredentials]⟩]) := by
  cases h : (getServiceAddresses cd.config).get serviceName with
  | none => rw [GetConn_unknown env w cd serviceName opts h, World.dialed_nil]
  | some address =>
    rw [GetConn_known env w cd serviceName opts address h]
    cases env.dial w.dials.length
      ⟨env.scheme ++ ":///" ++ GetConn.loop env cd address "",
       cd.additionalOpts ++ opts ++ [DialOption.insecureCredentials]⟩ <;> rfl

/-- C8: after `AddOption` calls with the argument lists `optss` on a new registry,
every dial of `GetConn` or `GetConns` with caller options `opts` is handed
exactly the defaults in the order added, then the caller options, then the
insecure transport credentials; `AddOption` appends to the default list and
changes neither cache, self address, configuration nor the world. -/
theorem dial_options_defaults_caller_credentials (env : Env) (config : GlobalConfig)
    (optss : List (List DialOption)) (w : World) (serviceName : String)
    (opts : List DialOption) (cd : ConnDirect) :
    (addOptions (NewConnDirect config) optss).additionalOpts = optss.flatten ∧
    (GetConn env w (addOptions (NewConnDirect config) optss) serviceName opts).2.1 =
      w.dialed (match (getServiceAddresses config).get serviceName with
        | none => []
        | some address =>
          [⟨env.scheme ++ ":///" ++
              GetConn.loop env (addOptions (NewConnDirect config) optss) address "",
            optss.flatten ++ opts ++ [DialOption.insecureCredentials]⟩]) ∧
    (∃ m, m ≤ (((getServiceAddresses config).get serviceName).getD []).length ∧
      (GetConns env w (addOptions (NewConnDirect config) optss) serviceName opts).2.1 =
        w.dialed (((((getServiceAddresses config).get serviceName).getD []).take m).map
          (fun port => ⟨Sprintf env (config.Rpc.ListenIP ++ ":%d") port,
            optss.flatten ++ opts ++ [DialOption.insecureCredentials]⟩))) ∧
    (AddOption cd opts).additionalOpts = cd.additionalOpts ++ opts ∧
    (AddOption cd opts).conns = cd.conns ∧
    (AddOption cd opts).currentServiceAddress = cd.currentServiceAddress ∧
    (AddOption cd opts).config = cd.config ∧
    (step env w cd (.AddOption opts)).2.1 = w := by
  have hcd : addOptions (NewConnDirect config) optss =
      { NewConnDirect config with additionalOpts := optss.flatten } := by
    rw [addOptions_eq]; simp [NewConnDirect]
  refine ⟨by rw [hcd], ?_, ?_, rfl, rfl, rfl, rfl, rfl⟩
  · rw [GetConn_world]
    rw [hcd]
    rfl
  · obtain ⟨m, hm, h⟩ := GetConns_world env w (addOptions (NewConnDirect config) optss)
      serviceName opts
    rw [hcd] at hm h
    exact ⟨m, hm, by rw [hcd]; exact h⟩

/-! ## Formatting an address -/

theorem doPrintf_cons_plain (rest : String → Bool → Int → String) (n : Int) (c : Char)
    (cs : List Char) (used : Bool) (hc : c ≠ '%') :
    doPrintf rest n (c :: cs) used = c :: doPrintf rest n cs used := by
  cases cs <;> simp [doPrintf, hc]

theorem doPrintf_plain (rest : String → Bool → Int → String) (n : Int) (cs : List Char)
    (h : '%' ∉ cs) :
    doPrintf rest n (cs ++ [':', '%', 'd']) false = cs ++ ':' :: (toString n).data := by
  induction cs with
  | nil => simp [doPrintf, fmtModifiers]
  | cons c cs ih =>
    have hc : c ≠ '%' := fun h0 => h (by simp [h0])
    have hcs : '%' ∉ cs := fun h0 => h (by simp [h0])
    rw [List.cons_append, doPrintf_cons_plain rest n c _ false hc, ih hcs, List.cons_append]

/-- When the listen IP has no `%` in it, the format `ListenIP+":%d"` prints the IP,
a colon and the port in decimal. -/
theorem Sprintf_plain (env : Env) (ip : String) (n : Int) (h : '%' ∉ ip.data) :
    Sprintf env (ip ++ ":%d") n = ip ++ ":" ++ toString n := by
  apply String.ext
  have hd : (":%d" : String).data = [':', '%', 'd'] := rfl
  have hc : (":" : String).data = [':'] := rfl
  simp only [Sprintf, String.data_append, hd, hc]
  rw [doPrintf_plain env.fmtRest n ip.data h]
  simp

/-- A dotted IPv4 listen IP is printed as it stands, whatever the environment. -/
theorem Sprintf_sample_plain (env : Env) :
    Sprintf env ("127.0.0.1" ++ ":%d") 2001 = "127.0.0.1:2001" := by
  rfl

/-- An IPv6 listen IP with a zone: `%e` is taken as a verb and uses up the port,
so `%d` finds no operand; this does not depend on the environment either. -/
theorem Sprintf_sample_percent (env : Env) :
    Sprintf env ("fe80::1%eth0" ++ ":%d") 2001 = "fe80::1%!e(int=2001)th0:%!d(MISSING)" := by
  rfl

theorem String.ne_empty_of_data {s : String} (h : s.data ≠ []) : s ≠ "" := by
  intro h0
  rw [h0] at h
  exact h rfl

theorem GetConn.loop_go (env : Env) (cd : ConnDirect) (address : List Int) (result : String)
    (hr : result ≠ "") :
    GetConn.loop env cd address result =
      String.intercalate.go result ","
        (address.map (Sprintf env (cd.config.Rpc.ListenIP ++ ":%d"))) := by
  induction address generalizing result with
  | nil => simp [GetConn.loop, String.intercalate.go]
  | cons addr address ih =>
    have hne : result ++ "," ++ Sprintf env (cd.config.Rpc.ListenIP ++ ":%d") addr ≠ "" := by
      apply String.ne_empty_of_data
      have hc : ("," : String).data = [','] := rfl
      simp [String.data_append, hc]
    simp only [GetConn.loop, hr, ne_eq, not_false_eq_true, if_true, List.map_cons,
      String.intercalate.go]
    exact ih _ hne

/-- When every formatted address is non-empty, the loop of `GetConn` joins the
addresses with commas, in port order. -/
theorem GetConn.loop_intercalate (env : Env) (cd : ConnDirect) (address : List Int)
    (hf : ∀ addr, Sprintf env (cd.config.Rpc.ListenIP ++ ":%d") addr ≠ "") :
    GetConn.loop env cd address "" =
      ",".intercalate (address.map (Sprintf env (cd.config.Rpc.ListenIP ++ ":%d"))) := by
  cases address with
  | nil => simp [GetConn.loop, String.intercalate]
  | cons addr address =>
    simp only [GetConn.loop, ne_eq, not_true_eq_false, if_false, List.map_cons,
      String.intercalate]
    exact GetConn.loop_go env cd address _ (hf addr)

theorem Sprintf_plain_ne_empty (env : Env) (ip : String) (n : Int) (h : '%' ∉ ip.data) :
    Sprintf env (ip ++ ":%d") n ≠ "" := by
  rw [Sprintf_plain env ip n h]
  apply String.ne_empty_of_data
  have hc : (":" : String).data = [':'] := rfl
  simp [String.data_append, hc]

/-! ## The claims on dial targets and on fan-out -/

/-- For a listen IP without `%`: `GetConn` on a topology name with ports
`p1..pk` dials exactly once, the target being the resolver scheme, `:///` and
the addresses `ip:p1`, ..., `ip:pk` joined by commas in port order, and on
success returns the channel of that dial. -/
theorem GetConn_single_dial_on_plain_ip (env : Env) (w : World) (cd : ConnDirect)
    (serviceName : String) (opts : List DialOption) (address : List Int)
    (hip : '%' ∉ cd.config.Rpc.ListenIP.data)
    (h : (getServiceAddresses cd.config).get serviceName = some address) :
    (GetConn env w cd serviceName opts).2.1 =
      w.dialed [⟨env.scheme ++ ":///" ++
          ",".intercalate (address.map (fun p => cd.config.Rpc.ListenIP ++ ":" ++ toString p)),
        cd.additionalOpts ++ opts ++ [DialOption.insecureCredentials]⟩] ∧
    ∀ conn,
      env.dial w.dials.length
        ⟨env.scheme ++ ":///" ++
          ",".intercalate (address.map (fun p => cd.config.Rpc.ListenIP ++ ":" ++ toString p)),
         cd.additionalOpts ++ opts ++ [DialOption.insecureCredentials]⟩ = .ok conn →
      (GetConn env w cd serviceName opts).1 = .ok conn := by
  have hloop : GetConn.loop env cd address "" =
      ",".intercalate (address.map (fun p => cd.config.Rpc.ListenIP ++ ":" ++ toString p)) := by
    rw [GetConn.loop_intercalate env cd address
      (fun addr => Sprintf_plain_ne_empty env _ addr hip)]
    congr 1
    exact List.map_congr_left (fun p _ => Sprintf_plain env _ p hip)
  refine ⟨?_, ?_⟩
  · rw [GetConn_world, h]
    simp only [hloop]
  · intro conn hc
    rw [GetConn_known env w cd serviceName opts address h, hloop, hc]

theorem GetConn_single_dial_on_plain_ip_witness :
    (GetConn envUp World.init (NewConnDirect (sampleConfig "127.0.0.1")) "svcB" []).2.1.dials =
      [⟨"direct:///127.0.0.1:2001,127.0.0.1:2002", [DialOption.insecureCredentials]⟩] ∧
    (GetConn envUp World.init (NewConnDirect (sampleConfig "127.0.0.1")) "svcB" []).2.1 =
      World.init.dialed [⟨"direct" ++ ":///" ++ ",".intercalate
          ([2001, 2002].map (fun p => "127.0.0.1" ++ ":" ++ toString (p : Int))),
        [] ++ [] ++ [DialOption.insecureCredentials]⟩] ∧
    ∀ conn,
      envUp.dial World.init.dials.length
        ⟨"direct" ++ ":///" ++ ",".intercalate
          ([2001, 2002].map (fun p => "127.0.0.1" ++ ":" ++ toString (p : Int))),
         [] ++ [] ++ [DialOption.insecureCredentials]⟩ = .ok conn →
      (GetConn envUp World.init (NewConnDirect (sampleConfig "127.0.0.1")) "svcB" []).1 =
        .ok conn :=
  ⟨by rfl,
   GetConn_single_dial_on_plain_ip envUp World.init (NewConnDirect (sampleConfig "127.0.0.1"))
    "svcB" [] [2001, 2002] (by decide) (by decide)⟩

/-- C2 at a listen IP with a `%` in it (an IPv6 address with a zone): the IP is
part of the format string, so the target of the single dial of `GetConn` is not
the comma-joined list of `ip:port`. -/
theorem GetConn_target_with_percent_in_ip :
    (GetConn envUp World.init (NewConnDirect (sampleConfig "fe80::1%eth0")) "svcB" []).2.1.dials =
      [⟨"direct:///fe80::1%!e(int=2001)th0:%!d(MISSING),fe80::1%!e(int=2002)th0:%!d(MISSING)",
        [DialOption.insecureCredentials]⟩] ∧
    (GetConn envUp World.init (NewConnDirect (sampleConfig "fe80::1%eth0")) "svcB" []).2.1.dials ≠
      [⟨"direct:///fe80::1%eth0:2001,fe80::1%eth0:2002", [DialOption.insecureCredentials]⟩] := by
  constructor
  · rfl
  · decide

/-- For a listen IP without `%`: on a cache miss for a name with ports `p1..pk`
(`k ≥ 1`), if the environment answers each of the dials with a channel, then
`GetConns` dials exactly `k` times, the `i`-th target being the plain address
`ip:pi`, and returns the `k` channels, the `i`-th being the answer to the `i`-th
dial. -/
theorem GetConns_fan_out_on_plain_ip (env : Env) (w : World) (cd : ConnDirect)
    (serviceName : String) (opts : List DialOption) (ports : List Int)
    (hip : '%' ∉ cd.config.Rpc.ListenIP.data)
    (hmiss : cd.conns.get serviceName = none)
    (hports : (getServiceAddresses cd.config).get serviceName = some ports)
    (hne : ports ≠ [])
    (hup : ∀ r ∈ dialAnswers env w.dials.length
        (ports.map (fun p => ⟨cd.config.Rpc.ListenIP ++ ":" ++ toString p,
          cd.additionalOpts ++ opts ++ [DialOption.insecureCredentials]⟩)),
      ∃ conn, r = .ok conn) :
    ∃ conns, conns.length = ports.length ∧
      conns.map Except.ok = dialAnswers env w.dials.length
        (ports.map (fun p => ⟨cd.config.Rpc.ListenIP ++ ":" ++ toString p,
          cd.additionalOpts ++ opts ++ [DialOption.insecureCredentials]⟩)) ∧
      GetConns env w cd serviceName opts =
        (.ok conns,
         w.dialed (ports.map (fun p => ⟨cd.config.Rpc.ListenIP ++ ":" ++ toString p,
          cd.additionalOpts ++ opts ++ [DialOption.insecureCredentials]⟩)), cd) := by
  have hcalls : ports.map (GetConns.call env cd opts) =
      ports.map (fun p => ⟨cd.config.Rpc.ListenIP ++ ":" ++ toString p,
        cd.additionalOpts ++ opts ++ [DialOption.insecureCredentials]⟩) :=
    List.map_congr_left (fun p _ => by rw [GetConns.call, Sprintf_plain env _ p hip])
  obtain ⟨conns, hm, hg⟩ := GetConns_miss_ok env w cd serviceName opts ports hmiss
    (by rw [hports]; rfl) hne (by rw [hcalls]; exact hup)
  rw [hcalls] at hm hg
  refine ⟨conns, ?_, hm, hg⟩
  have h1 := congrArg List.length hm
  rw [dialAnswers_length, List.length_map, List.length_map] at h1
  exact h1

theorem GetConns_fan_out_on_plain_ip_witness :
    GetConns envUp World.init (NewConnDirect (sampleConfig "127.0.0.1")) "svcA" [] =
      (.ok [0, 1],
       ⟨[⟨"127.0.0.1:1001", [DialOption.insecureCredentials]⟩,
         ⟨"127.0.0.1:1002", [DialOption.insecureCredentials]⟩], []⟩,
       NewConnDirect (sampleConfig "127.0.0.1")) ∧
    ∃ conns, conns.length = [(1001 : Int), 1002].length ∧
      conns.map Except.ok = dialAnswers envUp World.init.dials.length
        ([1001, 1002].map (fun p => ⟨"127.0.0.1" ++ ":" ++ toString (p : Int),
          [] ++ [] ++ [DialOption.insecureCredentials]⟩)) ∧
      GetConns envUp World.init (NewConnDirect (sampleConfig "127.0.0.1")) "svcA" [] =
        (.ok conns,
         World.init.dialed ([1001, 1002].map (fun p => ⟨"127.0.0.1" ++ ":" ++ toString (p : Int),
          [] ++ [] ++ [DialOption.insecureCredentials]⟩)),
         NewConnDirect (sampleConfig "127.0.0.1")) :=
  ⟨by rfl,
   GetConns_fan_out_on_plain_ip envUp World.init (NewConnDirect (sampleConfig "127.0.0.1"))
    "svcA" [] [1001, 1002] (by decide) (by rfl) (by decide) (by decide)
    (fun r hr => by
      simp only [dialAnswers, List.map, envUp] at hr
      rcases List.mem_cons.mp hr with h | h
      · exact ⟨_, h⟩
      · rcases List.mem_cons.mp h with h | h
        · exact ⟨_, h⟩
        · cases h)⟩

/-- With the escape-checking dialer, a listen IP with a zone (`fe80::1%eth0`)
never gets a channel: the first formatted target has the malformed escape `%!e`,
so `GetConns` makes one dial and returns its error. -/
theorem GetConns_zone_ip_first_dial_refused :
    GetConns envChecked World.init (NewConnDirect (sampleConfig "fe80::1%eth0")) "svcA" [] =
      (.error (GoError.wrap (GoError.transport 0) []),
       ⟨[⟨"fe80::1%!e(int=1001)th0:%!d(MISSING)", [DialOption.insecureCredentials]⟩], []⟩,
       NewConnDirect (sampleConfig "fe80::1%eth0")) := by
  rfl

/-- C3 at the listen IP `fe80::1%%25eth0`, with a dialer that refuses malformed
targets: the IP is part of the format string, so `%%` is printed as `%`; both
dials are accepted and two channels are returned, one per port in port order,
but the targets are `fe80::1%25eth0:1001` and `fe80::1%25eth0:1002`, not the
listen IP followed by `:1001` and `:1002`. -/
theorem GetConns_targets_with_doubled_percent_in_ip :
    (NewConnDirect (sampleConfig "fe80::1%%25eth0")).conns.get "svcA" = none ∧
    (getServiceAddresses (sampleConfig "fe80::1%%25eth0")).get "svcA" = some [1001, 1002] ∧
    GetConns envChecked World.init (NewConnDirect (sampleConfig "fe80::1%%25eth0")) "svcA" [] =
      (.ok [0, 1],
       ⟨[⟨"fe80::1%25eth0:1001", [DialOption.insecureCredentials]⟩,
         ⟨"fe80::1%25eth0:1002", [DialOption.insecureCredentials]⟩], []⟩,
       NewConnDirect (sampleConfig "fe80::1%%25eth0")) ∧
    (GetConns envChecked World.init (NewConnDirect (sampleConfig "fe80::1%%25eth0")) "svcA"
      []).2.1.dials ≠
      [⟨"fe80::1%%25eth0" ++ ":1001", [DialOption.insecureCredentials]⟩,
       ⟨"fe80::1%%25eth0" ++ ":1002", [DialOption.insecureCredentials]⟩] := by
  refine ⟨by rfl, by decide, by rfl, by decide⟩

/-- C4 on the code: `GetConns` stores nothing, so after a first successful call
the name still has no cache entry and a second call dials every port again (four
dials after two calls) and hands back the new channels. -/
theorem GetConns_twice_dials_twice :
    (GetConns envUp World.init (NewConnDirect (sampleConfig "127.0.0.1")) "svcA" []).1 =
      .ok [0, 1] ∧
    (GetConns envUp World.init (NewConnDirect (sampleConfig "127.0.0.1")) "svcA"
      []).2.2.conns.get "svcA" = none ∧
    (GetConns envUp World.init (NewConnDirect (sampleConfig "127.0.0.1")) "svcA"
      []).2.1.dials.length = 2 ∧
    (GetConns envUp
      (GetConns envUp World.init (NewConnDirect (sampleConfig "127.0.0.1")) "svcA" []).2.1
      (GetConns envUp World.init (NewConnDirect (sampleConfig "127.0.0.1")) "svcA" []).2.2
      "svcA" []).1 = .ok [2, 3] ∧
    (GetConns envUp
      (GetConns envUp World.init (NewConnDirect (sampleConfig "127.0.0.1")) "svcA" []).2.1
      (GetConns envUp World.init (NewConnDirect (sampleConfig "127.0.0.1")) "svcA" []).2.2
      "svcA" []).2.1.dials.length = 4 := by
  refine ⟨?_, ?_, ?_, ?_, ?_⟩ <;> rfl

/-- C5, as the code has it: on a cache miss, when the port list of the name starts
with `port` and the dial for it fails (as it does when every dial fails),
`GetConns` makes that one dial and fails with its wrapped error, not with an
aggregate error; when the port list is empty or the name is absent, `GetConns`
dials nothing and fails with the "no connections found for service" error naming
the service. -/
theorem GetConns_failure_modes (env : Env) (w : World) (cd : ConnDirect) (serviceName : String)
    (opts : List DialOption) (hmiss : cd.conns.get serviceName = none) :
    (∀ port ports err,
      (getServiceAddresses cd.config).get serviceName = some (port :: ports) →
      env.dial w.dials.length (GetConns.call env cd opts port) = .error err →
      GetConns env w cd serviceName opts =
        (.error (GoError.wrap err []), w.dialed [GetConns.call env cd opts port], cd)) ∧
    ((getServiceAddresses cd.config).get serviceName = some [] ∨
      (getServiceAddresses cd.config).get serviceName = none →
      GetConns env w cd serviceName opts =
        (.error (GoError.wrap
          (GoError.new ("no connections found for service: " ++ serviceName)) []), w, cd)) := by
  refine ⟨fun port ports err hp hd => ?_, fun hp => ?_⟩
  · exact GetConns_miss_first_fails env w cd serviceName opts port ports err hmiss
      (by rw [hp]; rfl) hd
  · exact GetConns_no_ports env w cd serviceName opts hmiss
      (by rcases hp with hp | hp <;> rw [hp] <;> rfl)

theorem GetConns_failure_modes_witness :
    (∀ port ports err,
      (getServiceAddresses (sampleConfig "127.0.0.1")).get "svcA" = some (port :: ports) →
      envDown.dial World.init.dials.length
        (GetConns.call envDown (NewConnDirect (sampleConfig "127.0.0.1")) [] port) = .error err →
      GetConns envDown World.init (NewConnDirect (sampleConfig "127.0.0.1")) "svcA" [] =
        (.error (GoError.wrap err []),
         World.init.dialed
          [GetConns.call envDown (NewConnDirect (sampleConfig "127.0.0.1")) [] port],
         NewConnDirect (sampleConfig "127.0.0.1"))) ∧
    ((getServiceAddresses (sampleConfig "127.0.0.1")).get "svcA" = some [] ∨
      (getServiceAddresses (sampleConfig "127.0.0.1")).get "svcA" = none →
      GetConns envDown World.init (NewConnDirect (sampleConfig "127.0.0.1")) "svcA" [] =
        (.error (GoError.wrap
          (GoError.new ("no connections found for service: " ++ "svcA")) []), World.init,
         NewConnDirect (sampleConfig "127.0.0.1"))) :=
  GetConns_failure_modes envDown World.init (NewConnDirect (sampleConfig "127.0.0.1")) "svcA" []
    (by rfl)

/-- C5 as stated fails: with ports `1001, 1002`, no cache entry and every dial
failing, `GetConns` returns the wrapped error of the first dial after one dial,
not the "no connections found for service" error. -/
theorem GetConns_all_dials_fail_counterexample :
    (NewConnDirect (sampleConfig "127.0.0.1")).conns.get "svcA" = none ∧
    (getServiceAddresses (sampleConfig "127.0.0.1")).get "svcA" = some [1001, 1002] ∧
    (∀ k call, envDown.dial k call = .error (GoError.transport k)) ∧
    (GetConns envDown World.init (NewConnDirect (sampleConfig "127.0.0.1")) "svcA" []).1 =
      .error (GoError.wrap (GoError.transport 0) []) ∧
    (GetConns envDown World.init (NewConnDirect (sampleConfig "127.0.0.1")) "svcA" []).1 ≠
      .error (GoError.wrap (GoError.new ("no connections found for service: " ++ "svcA")) []) ∧
    (GetConns envDown World.init (NewConnDirect (sampleConfig "127.0.0.1")) "svcA"
      []).2.1.dials.length = 1 := by
  refine ⟨by rfl, by decide, fun _ _ => rfl, by rfl, ?_, by rfl⟩
  intro h
  have h0 : (GetConns envDown World.init (NewConnDirect (sampleConfig "127.0.0.1")) "svcA"
      []).1 = .error (GoError.wrap (GoError.transport 0) []) := by rfl
  rw [h0] at h
  cases h

end Direct
